import Mathlib

/-!
# GoldPriceFetcher — verification of the specified behaviour

Shallow embedding of the pure core of `gold_price_scraper.py` and
`firebase_config.py`: Python strings become `List Char`, Python floats
become `ℚ` (all price comparisons/arithmetic in the source are exact on
the values that occur), Python dicts become insertion-ordered association
lists, and exceptions become `Except`/`Option` values threaded explicitly.
Impure wall-clock fields (`timestamp`, `scrape_timestamp`) and logging are
outside the model.
-/

set_option autoImplicit false

/-- A Python `str`, modelled as its list of characters (ASCII fragment:
`str.lower`, `\d` and whitespace are modelled on their ASCII behaviour,
which coincides with Python on every string the program manipulates). -/
abbrev PyStr := List Char

/-- Python `str.split(sep)` for a single-character separator: splits on
every occurrence, keeping empty fragments (`"".split(c) == [""]`). -/
def splitOnChar (sep : Char) : List Char → List (List Char)
  | [] => [[]]
  | c :: rest =>
    if c == sep then [] :: splitOnChar sep rest
    else
      match splitOnChar sep rest with
      | [] => [[c]]
      | h :: t => (c :: h) :: t

/-- Python `str.strip(chars)`: drop characters of `set` from both ends. -/
def stripSet (set : List Char) (s : List Char) : List Char :=
  ((s.dropWhile (set.contains ·)).reverse.dropWhile (set.contains ·)).reverse

/-- ASCII whitespace recognised by Python's default `str.strip()`. -/
def isPySpace (c : Char) : Bool :=
  c == ' ' || c == '\t' || c == '\n' || c == '\x0d' || c == '\x0b' || c == '\x0c'

/-- Python `str.strip()` (no argument): strip whitespace from both ends. -/
def pyStrip (s : List Char) : List Char :=
  ((s.dropWhile isPySpace).reverse.dropWhile isPySpace).reverse

/-- Python `str.zfill(2)` as applied in `_parse_date` (the arguments it
receives there are always exactly two characters, on which `zfill` is the
identity; sign handling is therefore not modelled). -/
def zfill2 (s : PyStr) : PyStr :=
  if 2 ≤ s.length then s else List.replicate (2 - s.length) '0' ++ s

/-- `re.match(r'\d{2}-\d{2}-\d{4}', s)` viewed as a Boolean: `re.match`
anchors at the start only, so the test is that the first ten characters
follow the pattern `dd-dd-dddd`.  `List.getD` with the non-matching
default `' '` makes a too-short string fail the test, as in Python. -/
def matchesDashPattern (s : PyStr) : Bool :=
  (s.getD 0 ' ').isDigit && (s.getD 1 ' ').isDigit && (s.getD 2 ' ' == '-') &&
  (s.getD 3 ' ').isDigit && (s.getD 4 ' ').isDigit && (s.getD 5 ' ' == '-') &&
  (s.getD 6 ' ').isDigit && (s.getD 7 ' ').isDigit &&
  (s.getD 8 ' ').isDigit && (s.getD 9 ' ').isDigit

/-- `re.match(r'\d{2}/\d{2}/\d{4}', s)` viewed as a Boolean. -/
def matchesSlashPattern (s : PyStr) : Bool :=
  (s.getD 0 ' ').isDigit && (s.getD 1 ' ').isDigit && (s.getD 2 ' ' == '/') &&
  (s.getD 3 ' ').isDigit && (s.getD 4 ' ').isDigit && (s.getD 5 ' ' == '/') &&
  (s.getD 6 ' ').isDigit && (s.getD 7 ' ').isDigit &&
  (s.getD 8 ' ').isDigit && (s.getD 9 ' ').isDigit

/-- The body of `TanishqScraper._parse_date` as written: recognise
`DD-MM-YYYY` or `DD/MM/YYYY` prefixes and rearrange to `YYYY-MM-DD`;
a tuple-unpacking failure of `split` (a `ValueError`, caught by the
method's `except`) returns the input, as does a non-match. -/
def parse_date_body (date_text : PyStr) : PyStr :=
  if matchesDashPattern date_text then
    match splitOnChar '-' date_text with
    | [day, month, year] => year ++ '-' :: (zfill2 month ++ '-' :: zfill2 day)
    | _ => date_text
  else if matchesSlashPattern date_text then
    match splitOnChar '/' date_text with
    | [day, month, year] => year ++ '-' :: (zfill2 month ++ '-' :: zfill2 day)
    | _ => date_text
  else date_text

/-- `TanishqScraper._parse_date` as it actually executes: the module
`gold_price_scraper.py` never imports `re` at module level (the only
`import re` is local to `scrape_city_prices`), so the first statement of
the `try` block raises `NameError: name 're' is not defined`, which the
method's own `except Exception` swallows, returning `date_text`
unchanged.  Every call is therefore the identity. -/
def parse_date (date_text : PyStr) : PyStr := date_text

/-- `GoldPriceData` from `gold_price_scraper.py`.  The `timestamp` field
(`datetime.now().isoformat()`) is wall-clock input and is left out of the
pure model; every remaining constructor argument is kept. -/
structure GoldPriceData where
  jeweller : PyStr
  city : PyStr
  carat : PyStr
  price : ℚ
  date : PyStr
  source_url : Option PyStr := none
  additional_info : List (PyStr × PyStr) := []
deriving DecidableEq, Repr

/-- Python `str.lower()` (ASCII fragment). -/
def pyLower (s : PyStr) : PyStr := s.map Char.toLower

/-- Python `str.replace(" ", "_")`: every space becomes an underscore. -/
def replaceSpaceUnderscore (s : PyStr) : PyStr :=
  s.map fun c => if c = ' ' then '_' else c

/-- `GoldPriceData.get_document_id`:
`f"{jeweller}_{city}_{carat}_{date}".lower().replace(" ", "_")`. -/
def GoldPriceData.get_document_id (r : GoldPriceData) : PyStr :=
  replaceSpaceUnderscore (pyLower
    (r.jeweller ++ '_' :: (r.city ++ '_' :: (r.carat ++ '_' :: r.date))))

/-- The state of a `BaseJewellerScraper`: `jeweller_name` and
`supported_cities` come from the subclass, `carats` is fixed by
`__init__`. -/
structure BaseJewellerScraper where
  jeweller_name : PyStr
  supported_cities : List PyStr
  carats : List PyStr

/-- `BaseJewellerScraper.__init__`: records the name and cities and sets
`self.carats = ["18K", "22K", "24K"]`. -/
def BaseJewellerScraper.init (name : PyStr) (cities : List PyStr) :
    BaseJewellerScraper :=
  { jeweller_name := name, supported_cities := cities,
    carats := ["18K".data, "22K".data, "24K".data] }

/-- `BaseJewellerScraper.validate_data`: keep a record iff
`price > 1000 and price < 20000 and carat in self.carats and
city in self.supported_cities`, in input order. -/
def BaseJewellerScraper.validate_data (s : BaseJewellerScraper) :
    List GoldPriceData → List GoldPriceData
  | [] => []
  | item :: rest =>
    if (decide (1000 < item.price) && decide (item.price < 20000) &&
        s.carats.contains item.carat &&
        s.supported_cities.contains item.city) = true then
      item :: s.validate_data rest
    else
      s.validate_data rest

/-- One `{'price': …, 'date': …}` entry of `carat_data` in
`_extract_from_hidden_inputs`. -/
structure PricePoint where
  price : ℚ
  date : PyStr
deriving DecidableEq, Repr

/-- The `for i, (date_str, price) in enumerate(zip(dates_list,
prices_list))` loop of `_extract_from_hidden_inputs`: stop once `i >=
days`; otherwise run `_parse_date` on the token and append the pair
unless the result is falsy (the empty string). -/
def combinePairs : Nat → List (PyStr × ℚ) → List PricePoint
  | _, [] => []
  | 0, _ :: _ => []
  | fuel + 1, (date_str, price) :: rest =>
    let formatted_date := parse_date date_str
    if formatted_date = [] then combinePairs fuel rest
    else ⟨price, formatted_date⟩ :: combinePairs fuel rest

/-- The date/price pairing of `_extract_from_hidden_inputs` for one
karat: zip, truncate to `days`, filter falsy dates, then
`carat_data.reverse()`. -/
def extract_combine (dates : List PyStr) (prices : List ℚ) (days : Nat) :
    List PricePoint :=
  (combinePairs days (dates.zip prices)).reverse

/-- Digit run → value, `int`-style base-10 accumulation. -/
def digitsToNat (l : List Char) : Nat :=
  l.foldl (fun a c => 10 * a + (c.toNat - 48)) 0

/-- Python `float(s)` on an already-stripped string, modelled for plain
decimal literals (optional sign, digits, at most one point): `none` is a
`ValueError`.  Exotic accepted forms (`1e3`, `inf`, `nan`, `1_000`) are
outside the model; no claim depends on them. -/
def parseFloat (s : List Char) : Option ℚ :=
  let unsigned : List Char → Option ℚ := fun u =>
    match splitOnChar '.' u with
    | [ip] =>
      if ip ≠ [] ∧ ip.all Char.isDigit then some (digitsToNat ip) else none
    | [ip, fp] =>
      if (ip ≠ [] ∨ fp ≠ []) ∧ ip.all Char.isDigit ∧ fp.all Char.isDigit then
        some ((digitsToNat ip : ℚ) + (digitsToNat fp : ℚ) / 10 ^ fp.length)
      else none
    | _ => none
  match s with
  | '-' :: rest => (unsigned rest).map Neg.neg
  | '+' :: rest => unsigned rest
  | _ => unsigned s

/-- What the browser yields for one hidden input field: its `value`
string, or `.error ()` when `find_element` raises (element absent) or
`get_attribute` returns `None` (the subsequent `.strip` raises). -/
abbrev FieldValue := Except Unit PyStr

/-- The hidden inputs of the loaded Tanishq page that
`_extract_from_hidden_inputs` reads: `goldRateDates`, `goldRate18KT`,
`goldRate22KT`, `goldRate24KT`. -/
structure PageData where
  dates : FieldValue
  rate18 : FieldValue
  rate22 : FieldValue
  rate24 : FieldValue

/-- One attempted browser session: either `webdriver.Chrome(...)` /
`driver.get(...)` raised, or a page was obtained. -/
inductive DriverResult where
  | launchFail : DriverResult
  | page : PageData → DriverResult

/-- `dates_str = dates_value.strip('[]'); [d.strip() for d in
dates_str.split(',')]`. -/
def parseDatesList (v : PyStr) : List PyStr :=
  (splitOnChar ',' (stripSet ['[', ']'] v)).map pyStrip

/-- `prices_str = prices_value.strip('[]'); [float(p.strip()) for p in
prices_str.split(',')]`; `none` when any `float` raises `ValueError`. -/
def parsePricesList (v : PyStr) : Option (List ℚ) :=
  (splitOnChar ',' (stripSet ['[', ']'] v)).mapM fun p => parseFloat (pyStrip p)

/-- Per-karat body of the `for carat, input_id in input_ids.items()`
loop: a missing field or a failed `float` raises, is caught by the inner
`except`, and `continue`s — that karat contributes nothing. -/
def caratEntry (dates : List PyStr) (days : Nat) (carat : PyStr)
    (field : FieldValue) : Option (PyStr × List PricePoint) :=
  match field with
  | .error _ => none
  | .ok v =>
    match parsePricesList v with
    | none => none
    | some prices => some (carat, extract_combine dates prices days)

/-- `TanishqScraper._extract_from_hidden_inputs`: a failure to read
`goldRateDates` hits the outer `except` and yields `{}`; otherwise the
three karats are processed independently in insertion order. -/
def extract_from_hidden_inputs (pd : PageData) (days : Nat) :
    List (PyStr × List PricePoint) :=
  match pd.dates with
  | .error _ => []
  | .ok dates_value =>
    let dates_list := parseDatesList dates_value
    [("18K".data, pd.rate18), ("22K".data, pd.rate22), ("24K".data, pd.rate24)
      ].filterMap fun ck => caratEntry dates_list days ck.1 ck.2

/-- `TanishqScraper.get_source_url`. -/
def tanishq_source_url : PyStr :=
  "https://www.tanishq.co.in/gold-rate.html?lang=en_IN".data

/-- The `try` block of `TanishqScraper.scrape_city_prices`: build one
`GoldPriceData` per extracted price point, per karat. -/
def tanishq_scrape_try (city : PyStr) (days : Nat) (dr : DriverResult) :
    Except Unit (List GoldPriceData) :=
  match dr with
  | .launchFail => .error ()
  | .page pd =>
    .ok <| (extract_from_hidden_inputs pd days).flatMap fun cp =>
      cp.2.map fun pt =>
        { jeweller := "Tanishq".data, city := city, carat := cp.1,
          price := pt.price, date := pt.date,
          source_url := some tanishq_source_url,
          additional_info :=
            [("extraction_method".data, "optimized_hidden_inputs".data),
             ("currency".data, "INR".data), ("unit".data, "per_gram".data)] }

/-- `TanishqScraper.scrape_city_prices`: any exception escaping the `try`
block is caught and the method returns `[]`. -/
def tanishq_scrape_city_prices (city : PyStr) (days : Nat)
    (dr : DriverResult) : List GoldPriceData :=
  match tanishq_scrape_try city days dr with
  | .ok structured_data => structured_data
  | .error _ => []

/-- `TanishqScraper.__init__`'s `supported_cities`. -/
def tanishq_supported_cities : List PyStr :=
  ["Mumbai".data, "Delhi".data, "Bangalore".data, "Chennai".data,
   "Kolkata".data, "Hyderabad".data, "Pune".data, "Ahmedabad".data,
   "Jaipur".data, "Lucknow".data]

/-- `KalyanJewellersScraper.__init__`'s `supported_cities`. -/
def kalyan_supported_cities : List PyStr :=
  ["Mumbai".data, "Delhi".data, "Bangalore".data, "Chennai".data,
   "Kolkata".data, "Hyderabad".data, "Pune".data, "Kochi".data,
   "Thrissur".data, "Coimbatore".data]

/-- `JoyalukkasJewellersScraper.__init__`'s `supported_cities`. -/
def joyalukkas_supported_cities : List PyStr :=
  ["Mumbai".data, "Delhi".data, "Bangalore".data, "Chennai".data,
   "Kolkata".data, "Hyderabad".data, "Dubai".data, "Kuwait".data,
   "Qatar".data]

/-- `KalyanJewellersScraper.scrape_city_prices`: placeholder, logs and
returns `[]` for every input. -/
def kalyan_scrape_city_prices (_city : PyStr) (_days : Nat) :
    List GoldPriceData := []

/-- `JoyalukkasJewellersScraper.scrape_city_prices`: placeholder, logs
and returns `[]` for every input. -/
def joyalukkas_scrape_city_prices (_city : PyStr) (_days : Nat) :
    List GoldPriceData := []

/-- The three adapters registered in `GoldPriceManager.__init__`. -/
inductive ScraperKind where
  | tanishq : ScraperKind
  | kalyan : ScraperKind
  | joyalukkas : ScraperKind

/-- `self.scrapers = {"tanishq": …, "kalyan": …, "joyalukkas": …}`. -/
def registered_scrapers : List (PyStr × ScraperKind) :=
  [("tanishq".data, .tanishq), ("kalyan".data, .kalyan),
   ("joyalukkas".data, .joyalukkas)]

/-- `supported_cities` of each registered adapter. -/
def ScraperKind.supported_cities : ScraperKind → List PyStr
  | .tanishq => tanishq_supported_cities
  | .kalyan => kalyan_supported_cities
  | .joyalukkas => joyalukkas_supported_cities

/-- The environment a scrape run interacts with: the outcome of the one
browser session the Tanishq adapter opens for a given city. -/
def ScrapeEnv := PyStr → DriverResult

/-- Dispatch of `scraper.scrape_city_prices(city, days)`, paired with the
number of browser sessions the call attempts to open (`webdriver.Chrome`
is called exactly once per Tanishq city scrape, never by the
placeholders). -/
def ScraperKind.scrape_city (k : ScraperKind) (env : ScrapeEnv)
    (city : PyStr) (days : Nat) : List GoldPriceData × Nat :=
  match k with
  | .tanishq => (tanishq_scrape_city_prices city days (env city), 1)
  | .kalyan => (kalyan_scrape_city_prices city days, 0)
  | .joyalukkas => (joyalukkas_scrape_city_prices city days, 0)

/-- `BaseJewellerScraper.scrape_all_cities`: loop over the supported
cities, `try`/`except` around each (the per-city call never raises in
the model, matching the source's catch-and-continue). -/
def ScraperKind.scrape_all_cities (k : ScraperKind) (env : ScrapeEnv)
    (days : Nat) : List GoldPriceData × Nat :=
  k.supported_cities.foldl
    (fun acc city =>
      let r := k.scrape_city env city days
      (acc.1 ++ r.1, acc.2 + r.2))
    ([], 0)

/-- The explicit-cities branch of `GoldPriceManager.scrape_jeweller`:
unsupported cities are skipped with a warning. -/
def scrape_listed_cities (k : ScraperKind) (env : ScrapeEnv)
    (cities : List PyStr) (days : Nat) : List GoldPriceData × Nat :=
  cities.foldl
    (fun acc city =>
      if k.supported_cities.contains city then
        let r := k.scrape_city env city days
        (acc.1 ++ r.1, acc.2 + r.2)
      else acc)
    ([], 0)

/-- `GoldPriceManager.scrape_jeweller`: an unregistered name raises
`ValueError(f"Unsupported jeweller: {jeweller_name}")` (the `.error`
case); otherwise the resolved adapter is run over the requested or the
full city list.  The second component counts attempted browser
sessions. -/
def scrape_jeweller (env : ScrapeEnv) (jeweller_name : PyStr)
    (cities : Option (List PyStr)) (days : Nat) :
    Except PyStr (List GoldPriceData) × Nat :=
  match registered_scrapers.lookup jeweller_name with
  | none => (.error ("Unsupported jeweller: ".data ++ jeweller_name), 0)
  | some k =>
    match cities with
    | some cs =>
      let r := scrape_listed_cities k env cs days
      (.ok r.1, r.2)
    | none =>
      let r := k.scrape_all_cities env days
      (.ok r.1, r.2)

/-- Python `set.add`, on a set modelled as its insertion-ordered list of
distinct elements (only membership and emptiness are meaningful; CPython
iteration order of a `set` is unspecified). -/
def setAdd (s : List PyStr) (x : PyStr) : List PyStr :=
  if s.contains x then s else s ++ [x]

/-- Python `<` on strings: lexicographic by code point. -/
def pyStrLt : PyStr → PyStr → Bool
  | [], [] => false
  | [], _ :: _ => true
  | _ :: _, [] => false
  | a :: as, b :: bs => if a < b then true else if b < a then false else pyStrLt as bs

/-- Python `max(xs)` over the modelled set (the maximum is unique, so the
unspecified iteration order does not matter); `none` on the empty set. -/
def pyMaxList : List PyStr → Option PyStr
  | [] => none
  | x :: rest => some (rest.foldl (fun m y => if pyStrLt m y then y else m) x)

/-- Python `min(xs)` over the modelled set; `none` on the empty set. -/
def pyMinList : List PyStr → Option PyStr
  | [] => none
  | x :: rest => some (rest.foldl (fun m y => if pyStrLt y m then y else m) x)

/-- `d[k] = v` on an insertion-ordered Python dict: overwrite in place,
else append. -/
def dictUpsert : List (PyStr × GoldPriceData) → PyStr → GoldPriceData →
    List (PyStr × GoldPriceData)
  | [], k, v => [(k, v)]
  | (k', v') :: rest, k, v =>
    if k' = k then (k', v) :: rest else (k', v') :: dictUpsert rest k v

/-- The dictionary returned by `GoldPriceManager.create_summary_data`,
restricted to its data-dependent entries (the constant `summary` line,
`data_structure` block and the wall-clock `scrape_timestamp` carry no
scraped information). -/
structure SummaryData where
  total_entries : Nat
  jewellers : List PyStr
  cities : List PyStr
  date_from : Option PyStr
  date_to : Option PyStr
  latest_rates : List (PyStr × GoldPriceData)
deriving DecidableEq, Repr

/-- `GoldPriceManager.create_summary_data` over the `all_data` mapping
(retailer id → records, insertion-ordered). -/
def create_summary_data (all_data : List (PyStr × List GoldPriceData)) :
    SummaryData :=
  let total_entries := (all_data.map fun p => p.2.length).sum
  let all_jewellers := all_data.foldl (fun s p => setAdd s p.1) []
  let all_cities :=
    all_data.foldl (fun s p => p.2.foldl (fun s2 item => setAdd s2 item.city) s) []
  let all_dates :=
    all_data.foldl (fun s p => p.2.foldl (fun s2 item => setAdd s2 item.date) s) []
  let latest_rates :=
    match pyMaxList all_dates with
    | none => []
    | some latest_date =>
      all_data.foldl
        (fun lr p =>
          p.2.foldl
            (fun lr2 item =>
              if item.date = latest_date then
                dictUpsert lr2
                  (item.jeweller ++ '_' :: (item.city ++ '_' :: item.carat)) item
              else lr2)
            lr)
        []
  { total_entries := total_entries, jewellers := all_jewellers,
    cities := all_cities, date_from := pyMinList all_dates,
    date_to := pyMaxList all_dates, latest_rates := latest_rates }

/-- The batching skeleton shared by `GoldPriceManager.push_to_firebase`
and `FirebaseManager.push_gold_rates`: walk the records, incrementing
`batch_count`; on `batch_count >= 500` commit and start a fresh batch;
after the loop commit any non-empty remainder.  The result is the list
of committed batch sizes, in commit order. -/
def commitSizesAux {α : Type} : List α → Nat → List Nat
  | [], batch_count => if 0 < batch_count then [batch_count] else []
  | _ :: rest, batch_count =>
    let bc := batch_count + 1
    if 500 ≤ bc then bc :: commitSizesAux rest 0
    else commitSizesAux rest bc

/-- Committed batch sizes of `GoldPriceManager.push_to_firebase(data)`. -/
def push_to_firebase_commit_sizes (data : List GoldPriceData) : List Nat :=
  commitSizesAux data 0

/-- Committed batch sizes of `FirebaseManager.push_gold_rates(rates)`;
a rate dict is keyed by `(carat, price, date)`. -/
def push_gold_rates_commit_sizes (rates : List (PyStr × ℚ × PyStr)) :
    List Nat :=
  commitSizesAux rates 0

/-- The claim's "already in `YYYY-MM-DD` form": ten characters,
`dddd-dd-dd`. -/
def isYYYYMMDD (s : PyStr) : Bool :=
  (s.length == 10) &&
  (s.getD 0 ' ').isDigit && (s.getD 1 ' ').isDigit &&
  (s.getD 2 ' ').isDigit && (s.getD 3 ' ').isDigit &&
  (s.getD 4 ' ' == '-') && (s.getD 5 ' ').isDigit && (s.getD 6 ' ').isDigit &&
  (s.getD 7 ' ' == '-') && (s.getD 8 ' ').isDigit && (s.getD 9 ' ').isDigit

/-- A document-key component on which `lower()` and the space
replacement are the identity and which contains no key separator:
the class over which key derivation can be injective. -/
def CleanComponent (s : PyStr) : Prop :=
  ∀ c ∈ s, Char.toLower c = c ∧ c ≠ ' ' ∧ c ≠ '_'

instance (s : PyStr) : Decidable (CleanComponent s) := by
  unfold CleanComponent; infer_instance

/-- A concrete record, used to instantiate universally quantified
theorems on explicit inputs. -/
def sampleRecord : GoldPriceData :=
  { jeweller := "Tanishq".data, city := "Mumbai".data, carat := "18K".data,
    price := 7585, date := "2025-07-21".data,
    source_url := some tanishq_source_url, additional_info := [] }

/-! ## Validation (C1) -/

theorem validate_data_eq_filter (s : BaseJewellerScraper)
    (data : List GoldPriceData) :
    s.validate_data data = data.filter fun item =>
      decide (1000 < item.price) && decide (item.price < 20000) &&
      s.carats.contains item.carat &&
      s.supported_cities.contains item.city := by
  induction data with
  | nil => rfl
  | cons item rest ih =>
    simp only [BaseJewellerScraper.validate_data, List.filter_cons, ih]

/-- C1: validation accepts exactly the records whose price lies strictly
between 1000 and 20000, whose karat is one of 18K/22K/24K, and whose
city is in the adapter's supported set; accepted records are returned
unchanged and in order, independently of their siblings (the result is
literally the filter of the input by that predicate). -/
theorem C1_validate_data_filters_exactly (name : PyStr)
    (cities : List PyStr) (data : List GoldPriceData) :
    (BaseJewellerScraper.init name cities).validate_data data =
      data.filter fun item =>
        decide (1000 < item.price) && decide (item.price < 20000) &&
        ["18K".data, "22K".data, "24K".data].contains item.carat &&
        cities.contains item.city := by
  rw [validate_data_eq_filter]; rfl

/-! ## Placeholder adapters (C8) -/

theorem scrape_listed_cities_kalyan (env : ScrapeEnv) (cs : List PyStr)
    (days : Nat) : scrape_listed_cities .kalyan env cs days = ([], 0) := by
  unfold scrape_listed_cities
  suffices h : ∀ acc : List GoldPriceData × Nat,
      cs.foldl (fun acc city =>
        if (ScraperKind.kalyan.supported_cities).contains city then
          let r := ScraperKind.kalyan.scrape_city env city days
          (acc.1 ++ r.1, acc.2 + r.2)
        else acc) acc = acc from h ([], 0)
  intro acc
  induction cs generalizing acc with
  | nil => rfl
  | cons c rest ih =>
    rw [List.foldl_cons]
    have hstep : (if (ScraperKind.kalyan.supported_cities).contains c = true
        then
          let r := ScraperKind.kalyan.scrape_city env c days
          (acc.1 ++ r.1, acc.2 + r.2)
        else acc) = acc := by
      split
      · simp [ScraperKind.scrape_city, kalyan_scrape_city_prices]
      · rfl
    rw [hstep]
    exact ih acc

theorem scrape_listed_cities_joyalukkas (env : ScrapeEnv) (cs : List PyStr)
    (days : Nat) : scrape_listed_cities .joyalukkas env cs days = ([], 0) := by
  unfold scrape_listed_cities
  suffices h : ∀ acc : List GoldPriceData × Nat,
      cs.foldl (fun acc city =>
        if (ScraperKind.joyalukkas.supported_cities).contains city then
          let r := ScraperKind.joyalukkas.scrape_city env city days
          (acc.1 ++ r.1, acc.2 + r.2)
        else acc) acc = acc from h ([], 0)
  intro acc
  induction cs generalizing acc with
  | nil => rfl
  | cons c rest ih =>
    rw [List.foldl_cons]
    have hstep : (if (ScraperKind.joyalukkas.supported_cities).contains c = true
        then
          let r := ScraperKind.joyalukkas.scrape_city env c days
          (acc.1 ++ r.1, acc.2 + r.2)
        else acc) = acc := by
      split
      · simp [ScraperKind.scrape_city, joyalukkas_scrape_city_prices]
      · rfl
    rw [hstep]
    exact ih acc

/-- C8: both unimplemented adapters return the empty list for every city
and day count (their bodies are a log line and `return []`, so no
exception can escape), and through the coordinator they yield zero
records and zero browser sessions for any requested city list. -/
theorem C8_placeholders_always_empty (city : PyStr) (days : Nat)
    (env : ScrapeEnv) (cities : List PyStr) :
    kalyan_scrape_city_prices city days = [] ∧
    joyalukkas_scrape_city_prices city days = [] ∧
    scrape_jeweller env "kalyan".data (some cities) days = (.ok [], 0) ∧
    scrape_jeweller env "kalyan".data none days = (.ok [], 0) ∧
    scrape_jeweller env "joyalukkas".data (some cities) days = (.ok [], 0) ∧
    scrape_jeweller env "joyalukkas".data none days = (.ok [], 0) := by
  refine ⟨rfl, rfl, ?_, rfl, ?_, rfl⟩
  · show (Except.ok (scrape_listed_cities .kalyan env cities days).1,
      (scrape_listed_cities .kalyan env cities days).2) =
      ((Except.ok []), 0)
    rw [scrape_listed_cities_kalyan]
  · show (Except.ok (scrape_listed_cities .joyalukkas env cities days).1,
      (scrape_listed_cities .joyalukkas env cities days).2) =
      ((Except.ok []), 0)
    rw [scrape_listed_cities_joyalukkas]

/-! ## Batched upserts (C9) -/

theorem commitSizesAux_length {α : Type} (l : List α) :
    ∀ bc : Nat, bc < 500 →
      (commitSizesAux l bc).length = (l.length + bc + 499) / 500 := by
  induction l with
  | nil =>
    intro bc hbc
    rw [commitSizesAux]
    by_cases h : 0 < bc
    · rw [if_pos h]
      simp only [List.length_cons, List.length_nil]
      omega
    · rw [if_neg h]
      simp only [List.length_nil]
      omega
  | cons a rest ih =>
    intro bc hbc
    rw [commitSizesAux]
    by_cases h : 500 ≤ bc + 1
    · have hbc' : bc = 499 := by omega
      subst hbc'
      simp only [h, if_true, List.length_cons]
      rw [ih 0 (by omega)]
      try simp only [List.length_cons]
      omega
    · simp only [h, if_false, Bool.false_eq_true]
      rw [ih (bc + 1) (by omega)]
      try simp only [List.length_cons]
      omega

theorem commitSizesAux_sum {α : Type} (l : List α) :
    ∀ bc : Nat, bc < 500 → (commitSizesAux l bc).sum = l.length + bc := by
  induction l with
  | nil =>
    intro bc hbc
    rw [commitSizesAux]
    by_cases h : 0 < bc
    · rw [if_pos h]
      simp only [List.sum_cons, List.sum_nil, List.length_nil]
      omega
    · rw [if_neg h]
      simp only [List.sum_nil, List.length_nil]
      omega
  | cons a rest ih =>
    intro bc hbc
    rw [commitSizesAux]
    by_cases h : 500 ≤ bc + 1
    · have hbc' : bc = 499 := by omega
      subst hbc'
      simp only [h, if_true, List.sum_cons]
      rw [ih 0 (by omega)]
      try simp only [List.length_cons]
      omega
    · simp only [h, if_false, Bool.false_eq_true]
      rw [ih (bc + 1) (by omega)]
      try simp only [List.length_cons]
      omega

theorem commitSizesAux_mem_bounds {α : Type} (l : List α) :
    ∀ bc : Nat, bc < 500 → ∀ s ∈ commitSizesAux l bc, 0 < s ∧ s ≤ 500 := by
  induction l with
  | nil =>
    intro bc hbc s hs
    by_cases h : 0 < bc <;> simp [commitSizesAux, h] at hs
    subst hs; omega
  | cons a rest ih =>
    intro bc hbc s hs
    rw [commitSizesAux] at hs
    by_cases h : 500 ≤ bc + 1
    · simp only [h, if_true, List.mem_cons] at hs
      rcases hs with hs | hs
      · omega
      · exact ih 0 (by omega) s hs
    · simp only [h, if_false, Bool.false_eq_true] at hs
      exact ih (bc + 1) (by omega) s hs

set_option maxRecDepth 8000 in
/-- C9: the batched Firebase upsert commits in groups of at most 500
operations — exactly `⌈n/500⌉` commits for `n` records, every committed
batch non-empty and of size at most 500, no record dropped (the sizes
sum to `n`), and for 501 records exactly the two commits `[500, 1]`.
The same holds for `FirebaseManager.push_gold_rates`. -/
theorem C9_push_batching :
    (∀ data : List GoldPriceData,
      (push_to_firebase_commit_sizes data).length = (data.length + 499) / 500) ∧
    (∀ data : List GoldPriceData,
      (push_to_firebase_commit_sizes data).sum = data.length) ∧
    (∀ data : List GoldPriceData, ∀ s ∈ push_to_firebase_commit_sizes data,
      0 < s ∧ s ≤ 500) ∧
    push_to_firebase_commit_sizes (List.replicate 501 sampleRecord) = [500, 1] ∧
    (∀ rates : List (PyStr × ℚ × PyStr),
      (push_gold_rates_commit_sizes rates).length = (rates.length + 499) / 500) := by
  refine ⟨?_, ?_, ?_, ?_, ?_⟩
  · intro data
    rw [push_to_firebase_commit_sizes, commitSizesAux_length data 0 (by omega)]
  · intro data
    rw [push_to_firebase_commit_sizes, commitSizesAux_sum data 0 (by omega)]
    omega
  · intro data
    exact commitSizesAux_mem_bounds data 0 (by omega)
  · decide
  · intro rates
    rw [push_gold_rates_commit_sizes, commitSizesAux_length rates 0 (by omega)]

set_option maxRecDepth 8000 in
/-- Witness for C9 on a concrete input: the batch of 500 committed for
501 records is non-empty and within the cap. -/
theorem C9_push_batching_witness : 0 < 500 ∧ 500 ≤ 500 :=
  C9_push_batching.2.2.1 (List.replicate 501 sampleRecord) 500 (by decide)

/-! ## `splitOnChar` structure lemmas -/

theorem splitOnChar_ne_nil (sep : Char) (l : List Char) :
    splitOnChar sep l ≠ [] := by
  cases l with
  | nil => simp [splitOnChar]
  | cons c rest =>
    rw [splitOnChar]
    by_cases h : (c == sep) = true
    · simp [h]
    · simp only [h, if_false, Bool.false_eq_true]
      cases splitOnChar sep rest <;> simp

theorem splitOnChar_sep_free (sep : Char) (l : List Char)
    (h : ∀ c ∈ l, c ≠ sep) : splitOnChar sep l = [l] := by
  induction l with
  | nil => rfl
  | cons c rest ih =>
    rw [splitOnChar]
    have hc : (c == sep) = false := by
      simp only [beq_eq_false_iff_ne, ne_eq]
      exact h c (List.mem_cons_self c rest)
    rw [hc]
    simp only [Bool.false_eq_true, if_false]
    rw [ih fun x hx => h x (List.mem_cons_of_mem c hx)]

theorem splitOnChar_append_sep (sep : Char) (a l : List Char)
    (h : ∀ c ∈ a, c ≠ sep) :
    splitOnChar sep (a ++ sep :: l) = a :: splitOnChar sep l := by
  induction a with
  | nil => simp [splitOnChar]
  | cons c rest ih =>
    rw [List.cons_append, splitOnChar]
    have hc : (c == sep) = false := by
      simp only [beq_eq_false_iff_ne, ne_eq]
      exact h c (List.mem_cons_self c rest)
    rw [hc]
    simp only [Bool.false_eq_true, if_false]
    rw [ih fun x hx => h x (List.mem_cons_of_mem c hx)]

theorem splitOnChar_eq_single (sep : Char) (l x : List Char)
    (h : splitOnChar sep l = [x]) : x = l := by
  induction l generalizing x with
  | nil =>
    rw [splitOnChar] at h
    exact (List.cons.inj h).1.symm
  | cons c rest ih =>
    rw [splitOnChar] at h
    by_cases hc : (c == sep) = true
    · rw [if_pos hc] at h
      exact absurd (List.cons.inj h).2 (splitOnChar_ne_nil sep rest)
    · rw [if_neg (by simp [hc])] at h
      rcases hs : splitOnChar sep rest with _ | ⟨hd, tl⟩
      · exact absurd hs (splitOnChar_ne_nil sep rest)
      · rw [hs] at h
        obtain ⟨h1, h2⟩ := List.cons.inj h
        cases h2
        have := ih hd hs
        subst this
        exact h1.symm

/-! ## Document keys (C4) -/

theorem clean_maps_id (s : PyStr) (h : CleanComponent s) :
    (s.map Char.toLower).map (fun c => if c = ' ' then '_' else c) = s := by
  induction s with
  | nil => rfl
  | cons c rest ih =>
    obtain ⟨hl, hsp, _⟩ := h c (List.mem_cons_self c rest)
    simp only [List.map_cons, hl, if_neg hsp, List.cons.injEq, true_and]
    exact ih fun x hx => h x (List.mem_cons_of_mem c hx)

theorem doc_id_of_clean (r : GoldPriceData) (hj : CleanComponent r.jeweller)
    (hc : CleanComponent r.city) (hk : CleanComponent r.carat)
    (hd : CleanComponent r.date) :
    r.get_document_id =
      r.jeweller ++ '_' :: (r.city ++ '_' :: (r.carat ++ '_' :: r.date)) := by
  have hu : Char.toLower '_' = '_' := by decide
  simp only [GoldPriceData.get_document_id, pyLower, replaceSpaceUnderscore,
    List.map_append, List.map_cons, hu, ite_self]
  rw [clean_maps_id _ hj, clean_maps_id _ hc, clean_maps_id _ hk,
    clean_maps_id _ hd]

/-- C4 (amended): key derivation is a deterministic function of the
(retailer, city, karat, date) quadruple, maps the example tuple to
`tanishq_mumbai_18k_2025-07-21`, and is injective over tuples whose
components contain no uppercase letters, no spaces and no underscores;
over arbitrary tuples it is *not* injective (see the counterexample). -/
theorem C4_document_id_deterministic_and_injective_on_clean :
    (∀ r1 r2 : GoldPriceData, r1.jeweller = r2.jeweller →
      r1.city = r2.city → r1.carat = r2.carat → r1.date = r2.date →
      r1.get_document_id = r2.get_document_id) ∧
    (GoldPriceData.get_document_id
        { jeweller := "Tanishq".data, city := "Mumbai".data,
          carat := "18K".data, price := 7585, date := "2025-07-21".data } =
      "tanishq_mumbai_18k_2025-07-21".data) ∧
    (∀ r1 r2 : GoldPriceData,
      CleanComponent r1.jeweller → CleanComponent r1.city →
      CleanComponent r1.carat → CleanComponent r1.date →
      CleanComponent r2.jeweller → CleanComponent r2.city →
      CleanComponent r2.carat → CleanComponent r2.date →
      r1.get_document_id = r2.get_document_id →
      r1.jeweller = r2.jeweller ∧ r1.city = r2.city ∧
        r1.carat = r2.carat ∧ r1.date = r2.date) := by
  refine ⟨?_, by decide, ?_⟩
  · intro r1 r2 h1 h2 h3 h4
    simp only [GoldPriceData.get_document_id, h1, h2, h3, h4]
  · intro r1 r2 hj1 hc1 hk1 hd1 hj2 hc2 hk2 hd2 heq
    rw [doc_id_of_clean r1 hj1 hc1 hk1 hd1,
      doc_id_of_clean r2 hj2 hc2 hk2 hd2] at heq
    have s1 := congrArg (splitOnChar '_') heq
    rw [splitOnChar_append_sep _ _ _ (fun x hx => (hj1 x hx).2.2),
      splitOnChar_append_sep _ _ _ (fun x hx => (hc1 x hx).2.2),
      splitOnChar_append_sep _ _ _ (fun x hx => (hk1 x hx).2.2),
      splitOnChar_sep_free _ _ (fun x hx => (hd1 x hx).2.2),
      splitOnChar_append_sep _ _ _ (fun x hx => (hj2 x hx).2.2),
      splitOnChar_append_sep _ _ _ (fun x hx => (hc2 x hx).2.2),
      splitOnChar_append_sep _ _ _ (fun x hx => (hk2 x hx).2.2),
      splitOnChar_sep_free _ _ (fun x hx => (hd2 x hx).2.2)] at s1
    simp only [List.cons.injEq, and_true] at s1
    exact ⟨s1.1, s1.2.1, s1.2.2.1, s1.2.2.2⟩

/-- Witness for C4: the injectivity part applied to two concrete clean
records that differ only in price, recovering the component equalities
from their equal keys. -/
theorem C4_document_id_witness :
    ("tanishq".data : PyStr) = "tanishq".data ∧
      ("mumbai".data : PyStr) = "mumbai".data ∧
      ("18k".data : PyStr) = "18k".data ∧
      ("2025-07-21".data : PyStr) = "2025-07-21".data :=
  C4_document_id_deterministic_and_injective_on_clean.2.2
    { jeweller := "tanishq".data, city := "mumbai".data, carat := "18k".data,
      price := 7585, date := "2025-07-21".data }
    { jeweller := "tanishq".data, city := "mumbai".data, carat := "18k".data,
      price := 7600, date := "2025-07-21".data }
    (by decide) (by decide) (by decide) (by decide)
    (by decide) (by decide) (by decide) (by decide) (by decide)

/-- Counterexample for C4 as stated: two distinct (retailer, city,
karat, date) tuples — the retailers differ in letter case — share one
document key, so key derivation is not injective over all distinct
tuples. -/
theorem C4_document_id_counterexample :
    GoldPriceData.get_document_id
        { jeweller := "Tanishq".data, city := "Mumbai".data,
          carat := "18K".data, price := 7585, date := "2025-07-21".data } =
      GoldPriceData.get_document_id
        { jeweller := "tanishq".data, city := "Mumbai".data,
          carat := "18K".data, price := 7585, date := "2025-07-21".data } ∧
    ("Tanishq".data : PyStr) ≠ "tanishq".data := by decide

/-! ## Tanishq pair extraction (C2, C10) -/

theorem combinePairs_take (fuel : Nat) (l : List (PyStr × ℚ)) :
    combinePairs fuel l = combinePairs fuel (l.take fuel) := by
  induction l generalizing fuel with
  | nil => simp
  | cons dp rest ih =>
    cases fuel with
    | zero => rfl
    | succ fuel =>
      obtain ⟨d, p⟩ := dp
      rw [List.take_succ_cons]
      rw [combinePairs, combinePairs]
      by_cases h : parse_date d = []
      · rw [if_pos h, if_pos h, ih fuel]
      · rw [if_neg h, if_neg h, ih fuel]

theorem combinePairs_all_kept (l : List (PyStr × ℚ)) (fuel : Nat)
    (h : ∀ p ∈ l.take fuel, p.1 ≠ ([] : PyStr)) :
    combinePairs fuel l = (l.take fuel).map fun dp => PricePoint.mk dp.2 dp.1 := by
  induction l generalizing fuel with
  | nil => simp [combinePairs]
  | cons dp rest ih =>
    cases fuel with
    | zero => rfl
    | succ fuel =>
      obtain ⟨d, p⟩ := dp
      rw [List.take_succ_cons] at h ⊢
      rw [combinePairs, List.map_cons]
      have hd : d ≠ [] := h (d, p) (List.mem_cons_self _ _)
      rw [if_neg (by simpa [parse_date] using hd)]
      simp only [List.cons.injEq, true_and]
      exact ⟨rfl, ih fuel fun q hq => h q (List.mem_cons_of_mem _ hq)⟩

theorem combinePairs_mem (l : List (PyStr × ℚ)) (fuel : Nat)
    (pt : PricePoint) (h : pt ∈ combinePairs fuel l) :
    ∃ i, i < fuel ∧ l[i]? = some (pt.date, pt.price) := by
  induction l generalizing fuel with
  | nil => simp [combinePairs] at h
  | cons dp rest ih =>
    cases fuel with
    | zero => simp [combinePairs] at h
    | succ fuel =>
      obtain ⟨d, p⟩ := dp
      rw [combinePairs] at h
      by_cases hd : parse_date d = []
      · rw [if_pos hd] at h
        obtain ⟨i, hi, hget⟩ := ih fuel h
        exact ⟨i + 1, by omega, by simpa using hget⟩
      · rw [if_neg hd] at h
        rcases List.mem_cons.mp h with h | h
        · subst h
          exact ⟨0, by omega, by simp [parse_date]⟩
        · obtain ⟨i, hi, hget⟩ := ih fuel h
          exact ⟨i + 1, by omega, by simpa using hget⟩

theorem zip_getElem?_split {α β : Type} (l1 : List α) (l2 : List β)
    (i : Nat) (a : α) (b : β) (h : (l1.zip l2)[i]? = some (a, b)) :
    l1[i]? = some a ∧ l2[i]? = some b := by
  induction l1 generalizing l2 i with
  | nil => simp [List.zip] at h
  | cons x xs ih =>
    cases l2 with
    | nil => simp [List.zip] at h
    | cons y ys =>
      cases i with
      | zero =>
        simp only [List.zip_cons_cons, List.getElem?_cons_zero,
          Option.some.injEq, Prod.mk.injEq] at h
        simp [h.1, h.2]
      | succ i =>
        simp only [List.zip_cons_cons, List.getElem?_cons_succ] at h ⊢
        exact ih ys i h

theorem take_zip_eq {α β : Type} (l1 : List α) (l2 : List β) (n : Nat) :
    (l1.zip l2).take n = (l1.take n).zip (l2.take n) := by
  rw [List.zip_eq_zipWith, List.zip_eq_zipWith, List.take_zipWith]

/-- C2 (amended): provided each of the first `D` date tokens is
non-empty (an empty token is falsy in Python and its pair is silently
skipped), the extraction keeps exactly the pairs at indices `0..D-1`,
paired index-for-index, and returns them in reversed, newest-first
order. -/
theorem C2_first_days_pairs_reversed (dates : List PyStr)
    (prices : List ℚ) (D : Nat) (_hlen : dates.length = prices.length)
    (_hD : D < dates.length)
    (hne : ∀ d ∈ dates.take D, d ≠ ([] : PyStr)) :
    extract_combine dates prices D =
      (((dates.zip prices).take D).map fun dp =>
        PricePoint.mk dp.2 dp.1).reverse := by
  unfold extract_combine
  rw [combinePairs_all_kept]
  intro p hp
  rw [take_zip_eq] at hp
  obtain ⟨a, b⟩ := p
  exact hne a (List.of_mem_zip hp).1

/-- Witness for C2: five chronological tokens, three requested days —
the output is the reversal of the first three pairs. -/
theorem C2_first_days_pairs_reversed_witness :
    extract_combine
        ["21-06-2025".data, "22-06-2025".data, "23-06-2025".data,
         "24-06-2025".data, "25-06-2025".data]
        [7585, 7523, 7454, 7500, 7512] 3 =
      (((["21-06-2025".data, "22-06-2025".data, "23-06-2025".data,
          "24-06-2025".data, "25-06-2025".data].zip
            ([7585, 7523, 7454, 7500, 7512] : List ℚ)).take 3).map fun dp =>
        PricePoint.mk dp.2 dp.1).reverse :=
  C2_first_days_pairs_reversed _ _ 3 (by decide) (by decide) (by decide)

/-- Counterexample for C2 as stated: with an empty first date token the
code drops that pair (`if formatted_date:` is false on `""`), so the
output is not the reversal of the first `D` pairs. -/
theorem C2_first_days_pairs_reversed_counterexample :
    extract_combine [([] : PyStr), "24-06-2025".data] [(7585 : ℚ), 7523] 1 = [] ∧
    (((([([] : PyStr), "24-06-2025".data]).zip
        ([(7585 : ℚ), 7523] : List ℚ)).take 1).map fun dp =>
      PricePoint.mk dp.2 dp.1).reverse = [⟨7585, []⟩] := by
  exact ⟨rfl, rfl⟩

/-- C10: extraction never fails (it is a total function), reads only the
first `min(N, M, days)` index-aligned entries — truncating both inputs
to that length does not change the result — and every emitted point
comes from some index `i < min(N, M, days)` of both input sequences. -/
theorem C10_extraction_ignores_unmatched_tail (dates : List PyStr)
    (prices : List ℚ) (days : Nat) :
    extract_combine dates prices days =
      extract_combine
        (dates.take (min (min dates.length prices.length) days))
        (prices.take (min (min dates.length prices.length) days)) days ∧
    ∀ pt ∈ extract_combine dates prices days,
      ∃ i, i < min (min dates.length prices.length) days ∧
        dates[i]? = some pt.date ∧ prices[i]? = some pt.price := by
  constructor
  · unfold extract_combine
    rw [← take_zip_eq]
    rw [combinePairs_take days (dates.zip prices),
      combinePairs_take days ((dates.zip prices).take
        (min (min dates.length prices.length) days))]
    rw [List.take_take]
    have e : List.take days (dates.zip prices) =
        List.take (min days (min (min dates.length prices.length) days))
          (dates.zip prices) := by
      rw [List.take_eq_take, List.length_zip]
      omega
    rw [e]
  · intro pt hpt
    unfold extract_combine at hpt
    rw [List.mem_reverse] at hpt
    obtain ⟨i, hi, hget⟩ := combinePairs_mem _ _ _ hpt
    have hlen : i < (dates.zip prices).length := by
      rcases List.getElem?_eq_some.mp hget with ⟨hl, _⟩
      exact hl
    rw [List.length_zip] at hlen
    obtain ⟨h1, h2⟩ := zip_getElem?_split _ _ _ _ _ hget
    exact ⟨i, by omega, h1, h2⟩

/-- Witness for C10: a concrete extraction with a longer price sequence;
the emitted point comes from index 0 of both inputs. -/
theorem C10_extraction_witness :
    ∃ i, i < min (min 1 3) 5 ∧
      (["23-06-2025".data] : List PyStr)[i]? = some "23-06-2025".data ∧
      ([(7585 : ℚ), 7523, 7454] : List ℚ)[i]? = some 7585 :=
  (C10_extraction_ignores_unmatched_tail
      ["23-06-2025".data] [(7585 : ℚ), 7523, 7454] 5).2
    ⟨7585, "23-06-2025".data⟩ (by decide)

/-! ## Summary aggregation (C6) -/

theorem foldl_inner_nil (g : List PyStr → GoldPriceData → List PyStr)
    (l : List (PyStr × List GoldPriceData)) (hl : ∀ p ∈ l, p.2 = [])
    (acc : List PyStr) :
    l.foldl (fun s p => p.2.foldl g s) acc = acc := by
  induction l generalizing acc with
  | nil => rfl
  | cons q rest ih =>
    rw [List.foldl_cons, hl q (List.mem_cons_self q rest)]
    exact ih (fun p hp => hl p (List.mem_cons_of_mem q hp)) acc

theorem sum_lengths_nil (l : List (PyStr × List GoldPriceData))
    (hl : ∀ p ∈ l, p.2 = []) : (l.map fun p => p.2.length).sum = 0 := by
  induction l with
  | nil => rfl
  | cons q rest ih =>
    rw [List.map_cons, List.sum_cons, hl q (List.mem_cons_self q rest)]
    simpa using ih fun p hp => hl p (List.mem_cons_of_mem q hp)

/-- C6 (amended): over an empty retailer mapping the summary has zero
total entries, empty jeweller and city sets, a null date range and no
latest rates; over a mapping that carries retailer keys but zero records
everything is likewise empty/null except that the jeweller set equals
the key set (`create_summary_data` adds every key unconditionally). -/
theorem C6_summary_of_empty :
    create_summary_data [] =
      { total_entries := 0, jewellers := [], cities := [],
        date_from := none, date_to := none, latest_rates := [] } ∧
    ∀ all_data : List (PyStr × List GoldPriceData),
      (∀ p ∈ all_data, p.2 = []) →
      (create_summary_data all_data).total_entries = 0 ∧
      (create_summary_data all_data).cities = [] ∧
      (create_summary_data all_data).date_from = none ∧
      (create_summary_data all_data).date_to = none ∧
      (create_summary_data all_data).latest_rates = [] ∧
      (create_summary_data all_data).jewellers =
        all_data.foldl (fun s p => setAdd s p.1) [] := by
  refine ⟨rfl, ?_⟩
  intro all_data h
  have hdates : all_data.foldl
      (fun s p => p.2.foldl (fun s2 item => setAdd s2 item.date) s) [] = [] :=
    foldl_inner_nil _ all_data h []
  have hcities : all_data.foldl
      (fun s p => p.2.foldl (fun s2 item => setAdd s2 item.city) s) [] = [] :=
    foldl_inner_nil _ all_data h []
  have htotal := sum_lengths_nil all_data h
  simp only [create_summary_data, hdates, hcities, htotal]
  simp [pyMaxList, pyMinList]

/-- Witness for C6 on a concrete keyed-but-recordless mapping. -/
theorem C6_summary_of_empty_witness :
    (create_summary_data [("tanishq".data, [])]).total_entries = 0 ∧
    (create_summary_data [("tanishq".data, [])]).cities = [] ∧
    (create_summary_data [("tanishq".data, [])]).date_from = none ∧
    (create_summary_data [("tanishq".data, [])]).date_to = none ∧
    (create_summary_data [("tanishq".data, [])]).latest_rates = [] ∧
    (create_summary_data [("tanishq".data, [])]).jewellers =
      [("tanishq".data, ([] : List GoldPriceData))].foldl
        (fun s p => setAdd s p.1) [] :=
  C6_summary_of_empty.2 [("tanishq".data, [])] (by decide)

/-- Counterexample for C6 as stated: a mapping with a retailer key and
zero records is an empty record set, yet the jeweller set of its summary
is non-empty (the key is added unconditionally). -/
theorem C6_summary_counterexample :
    (create_summary_data [("tanishq".data, [])]).total_entries = 0 ∧
    (create_summary_data [("tanishq".data, [])]).jewellers ≠ [] := by
  refine ⟨rfl, ?_⟩
  decide

/-! ## Unsupported retailer (C7) -/

theorem lookup_none_of_not_registered (name : PyStr)
    (h : (registered_scrapers.map Prod.fst).contains name = false) :
    registered_scrapers.lookup name = none := by
  simp only [registered_scrapers, List.map_cons, List.map_nil,
    List.contains_cons, Bool.or_eq_false_iff, List.contains_nil,
    beq_eq_false_iff_ne, ne_eq] at h
  obtain ⟨h1, h2, h3, -⟩ := h
  simp only [registered_scrapers, List.lookup]
  rw [beq_eq_false_iff_ne.mpr h1, beq_eq_false_iff_ne.mpr h2,
    beq_eq_false_iff_ne.mpr h3]

/-- C7: requesting an unregistered retailer id from the coordinator
returns the hard `Unsupported jeweller` error with zero browser
sessions attempted (no browser or network activity), for every
environment, requested city list and day count; and for every
registered retailer id the coordinator never propagates an error —
the unsupported id is the only failure mode that escapes. -/
theorem C7_unsupported_jeweller_hard_error :
    (∀ (env : ScrapeEnv) (name : PyStr) (cities : Option (List PyStr))
      (days : Nat), (registered_scrapers.map Prod.fst).contains name = false →
      scrape_jeweller env name cities days =
        (.error ("Unsupported jeweller: ".data ++ name), 0)) ∧
    (∀ (env : ScrapeEnv) (name : PyStr) (cities : Option (List PyStr))
      (days : Nat), (registered_scrapers.map Prod.fst).contains name = true →
      ∃ l n, scrape_jeweller env name cities days = (.ok l, n)) := by
  constructor
  · intro env name cities days h
    rw [scrape_jeweller, lookup_none_of_not_registered name h]
  · intro env name cities days h
    simp only [registered_scrapers, List.map_cons, List.map_nil,
      List.contains_cons, List.contains_nil, Bool.or_eq_true,
      beq_iff_eq] at h
    have hlookup : ∃ k, registered_scrapers.lookup name = some k := by
      rcases h with h | h | h | h
      · subst h; exact ⟨.tanishq, rfl⟩
      · subst h; exact ⟨.kalyan, rfl⟩
      · subst h; exact ⟨.joyalukkas, rfl⟩
      · exact absurd h (by simp)
    obtain ⟨k, hk⟩ := hlookup
    rw [scrape_jeweller, hk]
    cases cities with
    | some cs => exact ⟨_, _, rfl⟩
    | none => exact ⟨_, _, rfl⟩

/-- Witness for C7: a concrete unregistered id fails hard with zero
browser sessions; the registered `tanishq` id succeeds. -/
theorem C7_unsupported_jeweller_witness :
    scrape_jeweller (fun _ => .launchFail) "pcjeweller".data none 30 =
      (.error ("Unsupported jeweller: ".data ++ "pcjeweller".data), 0) ∧
    ∃ l n, scrape_jeweller (fun _ => .launchFail) "tanishq".data none 30 =
      (.ok l, n) :=
  ⟨C7_unsupported_jeweller_hard_error.1 _ _ _ _ (by decide),
   C7_unsupported_jeweller_hard_error.2 _ _ _ _ (by decide)⟩

/-! ## Tanishq failure policy (C5) -/

theorem caratEntry_some_fst (dates : List PyStr) (days : Nat) (carat : PyStr)
    (field : FieldValue) (v : PyStr × List PricePoint)
    (h : caratEntry dates days carat field = some v) : v.1 = carat := by
  cases field with
  | error e => simp [caratEntry] at h
  | ok s =>
    simp only [caratEntry] at h
    cases hp : parsePricesList s with
    | none => rw [hp] at h; simp at h
    | some prices =>
      rw [hp] at h
      simp only [Option.some.injEq] at h
      rw [← h]

theorem filter_carat_ne (target c city : PyStr) (pts : List PricePoint) :
    ((pts.map fun pt =>
        ({ jeweller := "Tanishq".data
           city := city
           carat := c
           price := pt.price
           date := pt.date
           source_url := some tanishq_source_url
           additional_info :=
             [("extraction_method".data, "optimized_hidden_inputs".data),
              ("currency".data, "INR".data), ("unit".data, "per_gram".data)] }
          : GoldPriceData)).filter fun r => !(r.carat == target)) =
      if c == target then []
      else pts.map fun pt =>
        ({ jeweller := "Tanishq".data
           city := city
           carat := c
           price := pt.price
           date := pt.date
           source_url := some tanishq_source_url
           additional_info :=
             [("extraction_method".data, "optimized_hidden_inputs".data),
              ("currency".data, "INR".data), ("unit".data, "per_gram".data)] }
          : GoldPriceData) := by
  induction pts with
  | nil => simp
  | cons pt rest ih =>
    simp only [List.map_cons, List.filter_cons, ih]
    by_cases h : (c == target) = true
    · simp [h]
    · simp [h]

theorem tanishq_isolation_18 (city : PyStr) (days : Nat) (pd : PageData) :
    tanishq_scrape_city_prices city days
        (.page { pd with rate18 := .error () }) =
      (tanishq_scrape_city_prices city days (.page pd)).filter
        fun r => !(r.carat == "18K".data) := by
  simp only [tanishq_scrape_city_prices, tanishq_scrape_try,
    extract_from_hidden_inputs]
  cases hdts : pd.dates with
  | error e => rfl
  | ok dv =>
    have e18 : caratEntry (parseDatesList dv) days "18K".data
        (Except.error ()) = none := rfl
    have b18 : (("18K".data : PyStr) == "18K".data) = true := by decide
    have b22 : (("22K".data : PyStr) == "18K".data) = false := by decide
    have b24 : (("24K".data : PyStr) == "18K".data) = false := by decide
    rcases h18 : caratEntry (parseDatesList dv) days "18K".data pd.rate18
      with _ | ⟨c18, pts18⟩ <;>
    rcases h22 : caratEntry (parseDatesList dv) days "22K".data pd.rate22
      with _ | ⟨c22, pts22⟩ <;>
    rcases h24 : caratEntry (parseDatesList dv) days "24K".data pd.rate24
      with _ | ⟨c24, pts24⟩
    all_goals try (have hc18 := caratEntry_some_fst _ _ _ _ _ h18; subst hc18)
    all_goals try (have hc22 := caratEntry_some_fst _ _ _ _ _ h22; subst hc22)
    all_goals try (have hc24 := caratEntry_some_fst _ _ _ _ _ h24; subst hc24)
    all_goals
      simp only [List.filterMap_cons, List.filterMap_nil, h18, h22, h24, e18,
        List.flatMap_cons, List.flatMap_nil, List.append_nil, List.nil_append,
        List.filter_append, List.filter_nil, filter_carat_ne,
        b18, b22, b24, if_true, if_false, Bool.false_eq_true]

theorem tanishq_isolation_22 (city : PyStr) (days : Nat) (pd : PageData) :
    tanishq_scrape_city_prices city days
        (.page { pd with rate22 := .error () }) =
      (tanishq_scrape_city_prices city days (.page pd)).filter
        fun r => !(r.carat == "22K".data) := by
  simp only [tanishq_scrape_city_prices, tanishq_scrape_try,
    extract_from_hidden_inputs]
  cases hdts : pd.dates with
  | error e => rfl
  | ok dv =>
    have e22 : caratEntry (parseDatesList dv) days "22K".data
        (Except.error ()) = none := rfl
    have b18 : (("18K".data : PyStr) == "22K".data) = false := by decide
    have b22 : (("22K".data : PyStr) == "22K".data) = true := by decide
    have b24 : (("24K".data : PyStr) == "22K".data) = false := by decide
    rcases h18 : caratEntry (parseDatesList dv) days "18K".data pd.rate18
      with _ | ⟨c18, pts18⟩ <;>
    rcases h22 : caratEntry (parseDatesList dv) days "22K".data pd.rate22
      with _ | ⟨c22, pts22⟩ <;>
    rcases h24 : caratEntry (parseDatesList dv) days "24K".data pd.rate24
      with _ | ⟨c24, pts24⟩
    all_goals try (have hc18 := caratEntry_some_fst _ _ _ _ _ h18; subst hc18)
    all_goals try (have hc22 := caratEntry_some_fst _ _ _ _ _ h22; subst hc22)
    all_goals try (have hc24 := caratEntry_some_fst _ _ _ _ _ h24; subst hc24)
    all_goals
      simp only [List.filterMap_cons, List.filterMap_nil, h18, h22, h24, e22,
        List.flatMap_cons, List.flatMap_nil, List.append_nil, List.nil_append,
        List.filter_append, List.filter_nil, filter_carat_ne,
        b18, b22, b24, if_true, if_false, Bool.false_eq_true]

theorem tanishq_isolation_24 (city : PyStr) (days : Nat) (pd : PageData) :
    tanishq_scrape_city_prices city days
        (.page { pd with rate24 := .error () }) =
      (tanishq_scrape_city_prices city days (.page pd)).filter
        fun r => !(r.carat == "24K".data) := by
  simp only [tanishq_scrape_city_prices, tanishq_scrape_try,
    extract_from_hidden_inputs]
  cases hdts : pd.dates with
  | error e => rfl
  | ok dv =>
    have e24 : caratEntry (parseDatesList dv) days "24K".data
        (Except.error ()) = none := rfl
    have b18 : (("18K".data : PyStr) == "24K".data) = false := by decide
    have b22 : (("22K".data : PyStr) == "24K".data) = false := by decide
    have b24 : (("24K".data : PyStr) == "24K".data) = true := by decide
    rcases h18 : caratEntry (parseDatesList dv) days "18K".data pd.rate18
      with _ | ⟨c18, pts18⟩ <;>
    rcases h22 : caratEntry (parseDatesList dv) days "22K".data pd.rate22
      with _ | ⟨c22, pts22⟩ <;>
    rcases h24 : caratEntry (parseDatesList dv) days "24K".data pd.rate24
      with _ | ⟨c24, pts24⟩
    all_goals try (have hc18 := caratEntry_some_fst _ _ _ _ _ h18; subst hc18)
    all_goals try (have hc22 := caratEntry_some_fst _ _ _ _ _ h22; subst hc22)
    all_goals try (have hc24 := caratEntry_some_fst _ _ _ _ _ h24; subst hc24)
    all_goals
      simp only [List.filterMap_cons, List.filterMap_nil, h18, h22, h24, e24,
        List.flatMap_cons, List.flatMap_nil, List.append_nil, List.nil_append,
        List.filter_append, List.filter_nil, filter_carat_ne,
        b18, b22, b24, if_true, if_false, Bool.false_eq_true]

/-- C5: the Tanishq adapter never propagates a failure — for every
city, day count and browser outcome the call either succeeds with the
extracted records or swallows the exception and returns `[]`; a browser
launch failure and a missing dates field each yield `[]`; and a failure
confined to one karat's hidden input removes exactly that karat's
records, leaving the records built for the other karats untouched. -/
theorem C5_tanishq_failure_policy :
    (∀ (city : PyStr) (days : Nat) (dr : DriverResult),
      tanishq_scrape_try city days dr =
          .ok (tanishq_scrape_city_prices city days dr) ∨
        (tanishq_scrape_try city days dr = .error () ∧
          tanishq_scrape_city_prices city days dr = [])) ∧
    (∀ (city : PyStr) (days : Nat),
      tanishq_scrape_city_prices city days .launchFail = []) ∧
    (∀ (city : PyStr) (days : Nat) (pd : PageData), pd.dates = .error () →
      tanishq_scrape_city_prices city days (.page pd) = []) ∧
    (∀ (city : PyStr) (days : Nat) (pd : PageData),
      tanishq_scrape_city_prices city days
          (.page { pd with rate18 := .error () }) =
        (tanishq_scrape_city_prices city days (.page pd)).filter
          fun r => !(r.carat == "18K".data)) ∧
    (∀ (city : PyStr) (days : Nat) (pd : PageData),
      tanishq_scrape_city_prices city days
          (.page { pd with rate22 := .error () }) =
        (tanishq_scrape_city_prices city days (.page pd)).filter
          fun r => !(r.carat == "22K".data)) ∧
    (∀ (city : PyStr) (days : Nat) (pd : PageData),
      tanishq_scrape_city_prices city days
          (.page { pd with rate24 := .error () }) =
        (tanishq_scrape_city_prices city days (.page pd)).filter
          fun r => !(r.carat == "24K".data)) := by
  refine ⟨?_, fun _ _ => rfl, ?_, tanishq_isolation_18, tanishq_isolation_22,
    tanishq_isolation_24⟩
  · intro city days dr
    cases dr with
    | launchFail => exact Or.inr ⟨rfl, rfl⟩
    | page pd => exact Or.inl rfl
  · intro city days pd h
    simp only [tanishq_scrape_city_prices, tanishq_scrape_try,
      extract_from_hidden_inputs, h, List.flatMap_nil]

/-- Witness for C5: a page whose `goldRateDates` hidden input cannot be
read produces the empty record list. -/
theorem C5_tanishq_failure_policy_witness :
    tanishq_scrape_city_prices "Mumbai".data 30
      (.page ⟨.error (), .ok "[7585, 7523]".data, .ok "[8000]".data,
        .ok "[8100]".data⟩) = [] :=
  C5_tanishq_failure_policy.2.2.1 "Mumbai".data 30
    ⟨.error (), .ok "[7585, 7523]".data, .ok "[8000]".data,
      .ok "[8100]".data⟩ rfl

/-! ## Date parsing (C3) -/

theorem digit_ne_sep (c sep : Char) (hc : c.isDigit = true)
    (hsep : sep.isDigit = false) : c ≠ sep := by
  intro h
  rw [h, hsep] at hc
  exact Bool.false_ne_true hc

theorem split_pattern_year (sep : Char) (hsep : sep.isDigit = false)
    (hsp : sep ≠ ' ') (s : PyStr)
    (h0 : (s.getD 0 ' ').isDigit = true) (h1 : (s.getD 1 ' ').isDigit = true)
    (h2 : s.getD 2 ' ' = sep) (h3 : (s.getD 3 ' ').isDigit = true)
    (h4 : (s.getD 4 ' ').isDigit = true) (h5 : s.getD 5 ' ' = sep)
    (h8 : (s.getD 8 ' ').isDigit = true) (day month year : PyStr)
    (hsplit : splitOnChar sep s = [day, month, year]) :
    (year.getD 2 ' ').isDigit = true ∧ 2 < year.length := by
  rcases s with _ | ⟨a0, _ | ⟨a1, _ | ⟨a2, _ | ⟨a3, _ | ⟨a4, _ | ⟨a5, rest⟩⟩⟩⟩⟩⟩
  · exact absurd ((List.getD_nil (n := 2)) ▸ h2).symm hsp
  · exact absurd h2.symm hsp
  · exact absurd h2.symm hsp
  · exact absurd h5.symm hsp
  · exact absurd h5.symm hsp
  · exact absurd h5.symm hsp
  · simp only [List.getD_cons_succ, List.getD_cons_zero] at h0 h1 h2 h3 h4 h5 h8
    rw [h2, h5] at hsplit
    have m1 : ∀ c ∈ [a0, a1], c ≠ sep := by
      intro c hc
      rcases List.mem_pair.mp hc with rfl | rfl
      · exact digit_ne_sep _ _ h0 hsep
      · exact digit_ne_sep _ _ h1 hsep
    have m2 : ∀ c ∈ [a3, a4], c ≠ sep := by
      intro c hc
      rcases List.mem_pair.mp hc with rfl | rfl
      · exact digit_ne_sep _ _ h3 hsep
      · exact digit_ne_sep _ _ h4 hsep
    have e1 : splitOnChar sep (a0 :: a1 :: sep :: (a3 :: a4 :: sep :: rest)) =
        [a0, a1] :: splitOnChar sep (a3 :: a4 :: sep :: rest) :=
      splitOnChar_append_sep sep [a0, a1] (a3 :: a4 :: sep :: rest) m1
    have e2 : splitOnChar sep (a3 :: a4 :: sep :: rest) =
        [a3, a4] :: splitOnChar sep rest :=
      splitOnChar_append_sep sep [a3, a4] rest m2
    rw [e1, e2] at hsplit
    simp only [List.cons.injEq] at hsplit
    obtain ⟨-, -, hrest⟩ := hsplit
    have hyear : year = rest :=
      splitOnChar_eq_single sep rest year (by rw [hrest])
    subst hyear
    refine ⟨h8, ?_⟩
    by_contra hlen
    rw [List.getD_eq_default _ _ (by omega)] at h8
    exact Bool.false_ne_true ((by decide : (' ' : Char).isDigit = false) ▸ h8)

theorem not_match_of_digit2 (s : PyStr)
    (h : (s.getD 2 ' ').isDigit = true) :
    matchesDashPattern s = false ∧ matchesSlashPattern s = false := by
  have hd : (s.getD 2 ' ' == '-') = false :=
    beq_eq_false_iff_ne.mpr (digit_ne_sep _ _ h (by decide))
  have hs : (s.getD 2 ' ' == '/') = false :=
    beq_eq_false_iff_ne.mpr (digit_ne_sep _ _ h (by decide))
  constructor
  · simp only [matchesDashPattern, hd, Bool.and_false, Bool.false_and]
  · simp only [matchesSlashPattern, hs, Bool.and_false, Bool.false_and]

theorem parse_date_body_not_match (s : PyStr)
    (h1 : matchesDashPattern s = false)
    (h2 : matchesSlashPattern s = false) : parse_date_body s = s := by
  simp [parse_date_body, h1, h2]

theorem parse_date_body_idem (s : PyStr) :
    parse_date_body (parse_date_body s) = parse_date_body s := by
  by_cases hd : matchesDashPattern s = true
  · have hfacts := hd
    simp only [matchesDashPattern, Bool.and_eq_true] at hfacts
    obtain ⟨⟨⟨⟨⟨⟨⟨⟨⟨p0, p1⟩, p2⟩, p3⟩, p4⟩, p5⟩, p6⟩, p7⟩, p8⟩, p9⟩ := hfacts
    rcases hsplit : splitOnChar '-' s with _ | ⟨day, _ | ⟨month, _ | ⟨year, _ | ⟨w, ws⟩⟩⟩⟩
    · have hps : parse_date_body s = s := by simp [parse_date_body, hd, hsplit]
      rw [hps]
      exact hps
    · have hps : parse_date_body s = s := by simp [parse_date_body, hd, hsplit]
      rw [hps]
      exact hps
    · have hps : parse_date_body s = s := by simp [parse_date_body, hd, hsplit]
      rw [hps]
      exact hps
    · obtain ⟨ydig, ylen⟩ := split_pattern_year '-' (by decide) (by decide) s
        p0 p1 (beq_iff_eq.mp p2) p3 p4 (beq_iff_eq.mp p5) p8 day month year
        hsplit
      have hps : parse_date_body s =
          year ++ '-' :: (zfill2 month ++ '-' :: zfill2 day) := by
        simp [parse_date_body, hd, hsplit]
      rw [hps]
      have hout : (((year ++ '-' :: (zfill2 month ++ '-' :: zfill2 day)).getD
          2 ' ')).isDigit = true := by
        rw [List.getD_append _ _ _ 2 ylen]
        exact ydig
      obtain ⟨m1, m2⟩ := not_match_of_digit2 _ hout
      exact parse_date_body_not_match _ m1 m2
    · have hps : parse_date_body s = s := by simp [parse_date_body, hd, hsplit]
      rw [hps]
      exact hps
  · have hd' : matchesDashPattern s = false := by simpa using hd
    by_cases hs : matchesSlashPattern s = true
    · have hfacts := hs
      simp only [matchesSlashPattern, Bool.and_eq_true] at hfacts
      obtain ⟨⟨⟨⟨⟨⟨⟨⟨⟨p0, p1⟩, p2⟩, p3⟩, p4⟩, p5⟩, p6⟩, p7⟩, p8⟩, p9⟩ := hfacts
      rcases hsplit : splitOnChar '/' s with _ | ⟨day, _ | ⟨month, _ | ⟨year, _ | ⟨w, ws⟩⟩⟩⟩
      · have hps : parse_date_body s = s := by
          simp [parse_date_body, hd', hs, hsplit]
        rw [hps]
        exact hps
      · have hps : parse_date_body s = s := by
          simp [parse_date_body, hd', hs, hsplit]
        rw [hps]
        exact hps
      · have hps : parse_date_body s = s := by
          simp [parse_date_body, hd', hs, hsplit]
        rw [hps]
        exact hps
      · obtain ⟨ydig, ylen⟩ := split_pattern_year '/' (by decide) (by decide) s
          p0 p1 (beq_iff_eq.mp p2) p3 p4 (beq_iff_eq.mp p5) p8 day month year
          hsplit
        have hps : parse_date_body s =
            year ++ '-' :: (zfill2 month ++ '-' :: zfill2 day) := by
          simp [parse_date_body, hd', hs, hsplit]
        rw [hps]
        have hout : (((year ++ '-' :: (zfill2 month ++ '-' :: zfill2 day)).getD
            2 ' ')).isDigit = true := by
          rw [List.getD_append _ _ _ 2 ylen]
          exact ydig
        obtain ⟨m1, m2⟩ := not_match_of_digit2 _ hout
        exact parse_date_body_not_match _ m1 m2
      · have hps : parse_date_body s = s := by
          simp [parse_date_body, hd', hs, hsplit]
        rw [hps]
        exact hps
    · have hps := parse_date_body_not_match s hd' (by simpa using hs)
      rw [hps]
      exact hps

theorem parse_date_body_of_isYYYYMMDD (s : PyStr)
    (h : isYYYYMMDD s = true) : parse_date_body s = s := by
  have h2 : (s.getD 2 ' ').isDigit = true := by
    simp only [isYYYYMMDD, Bool.and_eq_true] at h
    exact h.1.1.1.1.1.1.1.2
  obtain ⟨m1, m2⟩ := not_match_of_digit2 s h2
  exact parse_date_body_not_match s m1 m2

/-- C3: the date conversion is written as DD-MM-YYYY / DD/MM/YYYY →
YYYY-MM-DD; as executed, `_parse_date` is the identity, because `re` is
only imported inside `scrape_city_prices` and the resulting `NameError`
is swallowed by `_parse_date`'s own `except`, which returns the input.
So the code diverges from the claim at `"21-07-2025"` (it returns
`"21-07-2025"`, not `"2025-07-21"`): the claim describes the documented
body `parse_date_body`, for which every stated property holds —
`YYYY-MM-DD` strings are fixed points, the function is idempotent, the
two examples convert, and non-matching strings pass through. -/
theorem C3_date_normalization :
    parse_date "21-07-2025".data = "21-07-2025".data ∧
    parse_date "21-07-2025".data ≠ "2025-07-21".data ∧
    (∀ s : PyStr, parse_date (parse_date s) = parse_date s) ∧
    parse_date_body "21-07-2025".data = "2025-07-21".data ∧
    parse_date_body "21/07/2025".data = "2025-07-21".data ∧
    (∀ s : PyStr, isYYYYMMDD s = true → parse_date_body s = s) ∧
    (∀ s : PyStr, parse_date_body (parse_date_body s) = parse_date_body s) ∧
    (∀ s : PyStr, matchesDashPattern s = false →
      matchesSlashPattern s = false → parse_date_body s = s) :=
  ⟨rfl, by decide, fun _ => rfl, by decide, by decide,
   parse_date_body_of_isYYYYMMDD, parse_date_body_idem,
   parse_date_body_not_match⟩

/-- Witness for C3: the already-normalized string `2025-07-21` is a
fixed point of the documented conversion body. -/
theorem C3_date_normalization_witness :
    parse_date_body "2025-07-21".data = "2025-07-21".data :=
  C3_date_normalization.2.2.2.2.2.1 "2025-07-21".data (by decide)
